import Mathlib

/-!
# Verification of the BitePlug Discord bot core

A shallow embedding, in Lean 4, of the order/ticket state machine, the
virtual-card (VCC) inventory allocator, the strict batch validator and the
inventory-alert monitor of the BitePlug Discord bot, together with proofs
and refutations of the specified properties.

Strings from the JavaScript source are modelled as lists of characters
(`Str`), so that every operation (trim, split, the format regexes) is a
plain computable function that the kernel can evaluate on concrete inputs.
Database collections are modelled as Lean lists, asynchronous handlers as
pure state-passing functions, and `Date.now()` / `new Date()` as an
explicit `now : Nat` parameter (milliseconds).
-/

namespace BitePlug

/-- Characters are the unit of modelling; a JS string is a `List Char`. -/
abbrev Str := List Char

/-- JS `\s` / `trim()` whitespace, restricted to the ASCII whitespace that
can occur in the bot's inputs. -/
def isSpace (c : Char) : Bool :=
  c = ' ' || c = '\t' || c = '\n' || c = '\r'

/-- JS `String.prototype.trim`: strip leading and trailing whitespace. -/
def trim (s : Str) : Str :=
  ((s.dropWhile isSpace).reverse.dropWhile isSpace).reverse

/-- JS `String.prototype.split(sep)` for a single-character separator:
`"".split(',') = [""]`, `",".split(',') = ["", ""]`. -/
def splitOnChar (sep : Char) : Str → List Str
  | [] => [[]]
  | c :: rest =>
    if c = sep then
      [] :: splitOnChar sep rest
    else
      match splitOnChar sep rest with
      | [] => [[c]]
      | h :: t => (c :: h) :: t

/-- `cardString.split(',')` as in `vccService.js`. -/
def splitComma (s : Str) : List Str := splitOnChar ',' s

/-- `cardString.replace(/^,/, '')`: drop a single leading comma. -/
def stripHeadComma : Str → Str
  | ',' :: rest => rest
  | s => s

/-- The normalization applied to a raw line before persisting it
(`cardString.trim().replace(/^,/, '').trim()` in `vccService.js`). -/
def cleanLine (raw : Str) : Str := trim (stripHeadComma (trim raw))

/-- `/^\d{n}$/.test s`: exactly `n` decimal digits. -/
def allDigitsLen (n : Nat) (s : Str) : Bool :=
  s.length == n && s.all Char.isDigit

/-- `/^\d{2}\/\d{2}$/.test s`: the `MM/YY` shape test of `validateVccFormat`. -/
def expShape : Str → Bool
  | [a, b, sl, c, d] => a.isDigit && b.isDigit && sl = '/' && c.isDigit && d.isDigit
  | _ => false

/-- `parseInt(expDate.split('/')[0])` for a string already known to have the
`MM/YY` shape: the value of the two leading digits. -/
def expMonth : Str → Nat
  | a :: b :: _ => 10 * (a.toNat - 48) + (b.toNat - 48)
  | _ => 0

/-- `/^[^\s@]+@[^\s@]+\.[^\s@]+$/.test email`, the email check of
`validateVccFormat`: exactly one `'@'`, no whitespace, a nonempty local
part, and a `'.'` strictly inside the part after the `'@'` (so that both
the segment between `'@'` and `'.'` and the segment after `'.'` are
nonempty). -/
def emailOk (email : Str) : Bool :=
  match splitOnChar '@' email with
  | [a, b] =>
    !a.isEmpty && a.all (fun c => !isSpace c) && b.all (fun c => !isSpace c) &&
      ((b.drop 1).dropLast.contains '.')
  | _ => false

/-- The result object of `validateVccFormat` in `vccService.js`:
`{ valid, lineNumber?, error?, card? }` (absent JS fields are `none`). -/
structure ValidationResult where
  valid : Bool
  lineNumber : Option Nat
  error : Option String
  card : Option Str
deriving DecidableEq, Repr

/-- The first failing check of `validateVccFormat` (`vccService.js`,
lines 144-221), returning its error message, or `none` when every check
passes.  The checks run in source order: field count, card number,
expiration shape, month range, CVV, ZIP, email. -/
def vccFormatError (cardString : Str) : Option String :=
  let parts := (splitComma cardString).map trim
  match parts with
  | [cardNumber, expDate, cvv, zipCode, email] =>
    if !allDigitsLen 16 cardNumber then
      some ("Invalid card number (must be exactly 16 digits, got " ++
        toString cardNumber.length ++ " characters)")
    else if !expShape expDate then
      some "Invalid expiration date (must be MM/YY format)"
    else if expMonth expDate < 1 || 12 < expMonth expDate then
      some "Invalid month in expiration date (must be 01-12)"
    else if !allDigitsLen 3 cvv then
      some ("Invalid CVV (must be exactly 3 digits, got " ++
        toString cvv.length ++ " characters)")
    else if !allDigitsLen 5 zipCode then
      some ("Invalid ZIP code (must be exactly 5 digits, got " ++
        toString zipCode.length ++ " characters)")
    else if !emailOk email then
      some "Invalid email format (must contain @ and .)"
    else
      none
  | _ => some ("Expected 5 fields, got " ++ toString parts.length)

/-- `validateVccFormat(cardString, lineNumber)` from `vccService.js`:
on failure the result is tagged with the line number and the offending raw
text; on success only `valid: true` is returned. -/
def validateVccFormat (cardString : Str) (lineNumber : Nat) : ValidationResult :=
  match vccFormatError cardString with
  | some msg => ⟨false, some lineNumber, some msg, some cardString⟩
  | none => ⟨true, none, none, none⟩

/-- An element of the `duplicates` list of `validateVccBatch`. -/
structure DupEntry where
  lineNumber : Nat
  error : String
  card : Str
deriving DecidableEq, Repr

/-- Message for a card number repeated inside the uploaded file. -/
def dupInFileMsg : String := "Duplicate card number in file"

/-- Message for a card already present in the database. -/
def dupInDbMsg : String := "Card already exists in database"

/-- `cardString.split(',')[0].trim()`: the card number used for duplicate
checking in `validateVccBatch`. -/
def cardNumberOf (line : Str) : Str :=
  trim ((splitComma line).headD [])

/-- What the body of the `validateVccBatch` loop does with one raw line,
given the set `seen` of card numbers already admitted: skip it (blank),
record a format error, record an in-file duplicate, record an
already-in-database duplicate, or admit it. -/
inductive LineOutcome
  | blank
  | formatError (e : ValidationResult)
  | dupInFile (d : DupEntry)
  | dupInDb (d : DupEntry)
  | added
deriving DecidableEq, Repr

/-- One iteration of the `validateVccBatch` loop (`vccService.js`,
lines 233-273) for the line at 1-based number `n`, classifying the line.
The store is the list of `cardString` values already persisted. -/
def processLine (store : List Str) (seen : List Str) (raw : Str) (n : Nat) :
    LineOutcome :=
  let cardString := trim raw
  if cardString.isEmpty then
    .blank
  else
    match vccFormatError cardString with
    | some msg => .formatError ⟨false, some n, some msg, some cardString⟩
    | none =>
      let cardNumber := cardNumberOf cardString
      if seen.contains cardNumber then
        .dupInFile ⟨n, dupInFileMsg, cardString⟩
      else if store.contains (trim (stripHeadComma cardString)) then
        .dupInDb ⟨n, dupInDbMsg, cardString⟩
      else
        .added

/-- The evolution of `seenCardNumbers` across one line: the card number is
added exactly when the line is non-blank, format-valid and not already in
`seen` (the source adds it before the database lookup, so a line flagged
as a database duplicate still enters the set). -/
def nextSeen (seen : List Str) (raw : Str) : List Str :=
  let cardString := trim raw
  if cardString.isEmpty then
    seen
  else
    match vccFormatError cardString with
    | some _ => seen
    | none =>
      let cardNumber := cardNumberOf cardString
      if seen.contains cardNumber then seen else cardNumber :: seen

/-- The `validateVccBatch` loop over the remaining lines, where `i` lines
have already been consumed (so the next line gets number `i + 1`),
returning the `errors` and `duplicates` lists in line order. -/
def batchGo (store : List Str) : List Str → Nat → List Str →
    List ValidationResult × List DupEntry
  | [], _, _ => ([], [])
  | raw :: rest, i, seen =>
    let r := batchGo store rest (i + 1) (nextSeen seen raw)
    match processLine store seen raw (i + 1) with
    | .formatError e => (e :: r.1, r.2)
    | .dupInFile d => (r.1, d :: r.2)
    | .dupInDb d => (r.1, d :: r.2)
    | _ => r

/-- The result object of `validateVccBatch`. -/
structure BatchValidation where
  valid : Bool
  errors : List ValidationResult
  duplicates : List DupEntry
deriving DecidableEq, Repr

/-- `validateVccBatch(cardStrings)` from `vccService.js` (lines 228-280),
with the database's set of persisted card strings passed explicitly as
`store`.  `valid` holds exactly when both report lists are empty. -/
def validateVccBatch (store : List Str) (cardStrings : List Str) :
    BatchValidation :=
  let r := batchGo store cardStrings 0 []
  ⟨r.1.isEmpty && r.2.isEmpty, r.1, r.2⟩

/-- The result object of `bulkAddVccsStrict`. -/
structure StrictResult where
  success : Bool
  added : Nat
  errors : List ValidationResult
  duplicates : List DupEntry
deriving DecidableEq, Repr

/-- `bulkAddVccsStrict(cardStrings)` from `vccService.js` (lines 287-329):
validate the whole batch first; if anything is flagged, write nothing;
otherwise persist one cleaned card per non-blank line, in order.  Returns
the new store together with the result object. -/
def bulkAddVccsStrict (store : List Str) (cardStrings : List Str) :
    List Str × StrictResult :=
  let v := validateVccBatch store cardStrings
  if v.valid then
    let newCards := cardStrings.filterMap fun l =>
      if (trim l).isEmpty then none else some (cleanLine l)
    (store ++ newCards, ⟨true, newCards.length, [], []⟩)
  else
    (store, ⟨false, 0, v.errors, v.duplicates⟩)

/-! ## Card inventory (models.js `VirtualCard`, vccService.js allocator) -/

/-- `VirtualCard.status` enum: `['unused', 'used']`. -/
inductive CardStatus
  | unused
  | used
deriving DecidableEq, Repr

/-- A `VirtualCard` document (`models.js`): `_id` is modelled as a `Nat`,
`createdAt` as milliseconds. -/
structure VirtualCard where
  id : Nat
  cardString : Str
  status : CardStatus
  usedAt : Option Nat
  usedForOrderNumber : Option Str
  createdAt : Nat
deriving DecidableEq, Repr

/-- Error taxonomy of the allocator. -/
inductive VccError
  | poolExhausted
  | notFound
deriving DecidableEq, Repr

/-- The minimum of a card list by `createdAt`, keeping the earlier element
on ties — the head of a stable `createdAt`-ascending sort, as produced by
`find().sort({ createdAt: 1 })` over the `{ status: 1, createdAt: 1 }`
index. -/
def oldestFirst : List VirtualCard → Option VirtualCard
  | [] => none
  | c :: rest =>
    match oldestFirst rest with
    | none => some c
    | some b => if b.createdAt < c.createdAt then some b else some c

/-- `VirtualCard.findOne({ status: 'unused' }).sort({ createdAt: 1 })`:
the oldest card whose status is `unused`. -/
def findOldestUnused (pool : List VirtualCard) : Option VirtualCard :=
  oldestFirst (pool.filter fun c => c.status == .unused)

/-- `getUnusedVcc()` from `vccService.js` (lines 10-25): return the oldest
unused card, or fail when none exists.  The query is read-only, so the
pool is returned unchanged. -/
def getUnusedVcc (pool : List VirtualCard) :
    Except VccError (VirtualCard × List VirtualCard) :=
  match findOldestUnused pool with
  | none => .error .poolExhausted
  | some c => .ok (c, pool)

/-- `markVccAsUsed(vccId, orderNumber)` from `vccService.js` (lines 32-54):
`findByIdAndUpdate` looked up by id only — it sets `status`, `usedAt` and
`usedForOrderNumber` unconditionally on whichever card has that id,
regardless of the card's current status. -/
def markVccAsUsed (pool : List VirtualCard) (vccId : Nat) (now : Nat)
    (orderNumber : Str) : Except VccError (VirtualCard × List VirtualCard) :=
  match pool.find? (fun c => c.id == vccId) with
  | none => .error .notFound
  | some c =>
    let c' := { c with status := .used, usedAt := some now,
                       usedForOrderNumber := some orderNumber }
    .ok (c', pool.map fun d => if d.id == vccId then c' else d)

/-! ## Orders, users, daily stats (models.js, index.js close handler) -/

/-- `Order.status` enum (`models.js`). -/
inductive OrderStatus
  | pending_payment
  | payment_submitted
  | payment_verified
  | payment_failed
  | queued
  | processing
  | order_placed
  | delivered
  | failed
  | automation_failed
  | cancelled
deriving DecidableEq, Repr

/-- The slice of an `Order` document touched by the ticket workflow. -/
structure Order where
  orderNumber : Str
  userId : Nat
  chargeCents : Nat
  status : OrderStatus
  charged : Bool
  discordChannelId : Option Str
  assignedVccId : Option Nat
  vccString : Option Str
  completedAt : Option Nat
deriving DecidableEq, Repr

/-- The slice of a `User` document touched by the ticket workflow. -/
structure User where
  id : Nat
  balanceCents : Int
deriving DecidableEq, Repr

/-- A `DailyStats` document for one calendar day. -/
structure DailyStats where
  successCount : Nat
  failureCount : Nat
deriving DecidableEq, Repr

/-- The state an order-resolution button click can read or write: the
order, its owning user, and today's `DailyStats` record. -/
structure SysState where
  order : Order
  user : User
  stats : DailyStats
deriving DecidableEq, Repr

/-- The two resolution buttons: `close_success_…` and `close_fail_…`. -/
inductive CloseType
  | success
  | fail
deriving DecidableEq, Repr

/-- The user-visible acknowledgment of the `close` button handler. -/
inductive CloseReply
  | insufficientFunds
  | chargedSuccess (amountCents : Nat) (newBalanceCents : Int)
  | noCharge (statusText : String)
deriving DecidableEq, Repr

/-- `assignVccToOrder(orderId)` from `vccService.js` (lines 111-136):
allocate the oldest unused card and stamp the order with its id and raw
data.  Note that the card's status is NOT changed — `markVccAsUsed` is a
separate call that this function never makes. -/
def assignVccToOrder (pool : List VirtualCard) (order : Order) :
    Except VccError ((Order × VirtualCard) × List VirtualCard) :=
  match getUnusedVcc pool with
  | .error e => .error e
  | .ok (vcc, pool') =>
    let order' := { order with assignedVccId := some vcc.id,
                               vccString := some vcc.cardString }
    .ok ((order', vcc), pool')

/-- The `action === 'close'` branch of the `interactionCreate` handler
(`index.js` lines 810-921 of the current version), restricted to an order
and user that exist.  Success on a not-yet-charged order debits the user
and marks the order delivered; every other combination — including a
repeated Success click on an already-charged order — takes the `else`
branch, which overwrites the order with `status = 'failed'`,
`charged = false`, `completedAt = now`.  No branch touches `DailyStats`. -/
def closeButtonHandler (ty : CloseType) (now : Nat) (s : SysState) :
    SysState × CloseReply :=
  let shouldCharge := ty == .success
  if shouldCharge && !s.order.charged then
    if s.user.balanceCents < (s.order.chargeCents : Int) then
      (s, .insufficientFunds)
    else
      let user' := { s.user with
        balanceCents := s.user.balanceCents - (s.order.chargeCents : Int) }
      let order' := { s.order with
        charged := true, status := .delivered, completedAt := some now }
      (⟨order', user', s.stats⟩,
        .chargedSuccess s.order.chargeCents user'.balanceCents)
  else
    let order' := { s.order with
      status := .failed, charged := false, completedAt := some now }
    (⟨order', s.user, s.stats⟩,
      .noCharge (if ty == .success then "SUCCESS" else "FAILED"))

/-- The order-level operations of the ticket lifecycle: ticket creation
(the payment monitor's `createDiscordTicket`, guarded by its
`status: 'payment_verified', discordChannelId: null` query), resolve
success and resolve failure (the two `close` buttons). -/
inductive TicketOp
  | createTicket (channelId : Str)
  | resolveSuccess (now : Nat)
  | resolveFail (now : Nat)
deriving DecidableEq, Repr

/-- Apply one ticket-lifecycle operation to the state. -/
def applyTicketOp (s : SysState) : TicketOp → SysState
  | .createTicket ch =>
    if s.order.status == .payment_verified && s.order.discordChannelId == none then
      { s with order := { s.order with discordChannelId := some ch,
                                       status := .queued } }
    else
      s
  | .resolveSuccess t => (closeButtonHandler .success t s).1
  | .resolveFail t => (closeButtonHandler .fail t s).1

/-- Run a sequence of ticket-lifecycle operations. -/
def runOps (s : SysState) (ops : List TicketOp) : SysState :=
  ops.foldl applyTicketOp s

/-! ## Inventory alert monitor (index.js) -/

/-- `VCC_LOW_THRESHOLD` in `index.js`. -/
def lowThreshold : Nat := 10

/-- `alertCooldown` in `index.js`: one hour in milliseconds. -/
def alertCooldown : Nat := 60 * 60 * 1000

/-- The process-wide `lastAlertSent` variable. -/
structure AlertState where
  lastAlertSent : Nat
deriving DecidableEq, Repr

/-- `checkVccInventoryAndAlert()` from `index.js`: when the unused count is
at or below the threshold and the cooldown has elapsed, try to send the
alert; the timestamp is updated only after the send succeeds (`sendOk`
models the `try` block around channel fetch and send).  Returns the new
state and whether an alert was sent. -/
def checkVccInventoryAndAlert (unused : Nat) (now : Nat) (sendOk : Bool)
    (st : AlertState) : AlertState × Bool :=
  if unused ≤ lowThreshold then
    if now - st.lastAlertSent < alertCooldown then
      (st, false)
    else if sendOk then
      (⟨now⟩, true)
    else
      (st, false)
  else
    (st, false)

/-- The `/vcc-check` command handler (`index.js`): on low inventory it
zeroes `lastAlertSent`, runs `checkVccInventoryAndAlert`, and restores the
saved timestamp when the check did not set it; on healthy inventory it
only replies and touches nothing. -/
def vccCheckCommand (unused : Nat) (now : Nat) (sendOk : Bool)
    (st : AlertState) : AlertState × Bool :=
  if unused ≤ lowThreshold then
    let original := st.lastAlertSent
    let r := checkVccInventoryAndAlert unused now sendOk ⟨0⟩
    let st' := if r.1.lastAlertSent = 0 then (⟨original⟩ : AlertState) else r.1
    (st', r.2)
  else
    (st, false)

/-! ## Theorems about the resolve workflow (claims C1, C3, C4) -/

/-- C1 (amended): resolve-success on an order with `charged == false`: if
the user's balance is less than the charge the handler fails with
`InsufficientFunds` and mutates nothing; otherwise it debits the balance
by exactly the charge, sets `charged = true`, `status = delivered` and
`completedAt = now` — and leaves today's success counter unchanged (the
handler never touches `DailyStats`; the original claim's "increments
today's success counter by one" does not hold, see the counterexample). -/
theorem resolveSuccess_correct_amended (s : SysState) (now : Nat)
    (h : s.order.charged = false) :
    (s.user.balanceCents < (s.order.chargeCents : Int) →
      closeButtonHandler .success now s = (s, .insufficientFunds)) ∧
    ((s.order.chargeCents : Int) ≤ s.user.balanceCents →
      closeButtonHandler .success now s =
        (⟨{ s.order with charged := true, status := .delivered,
                         completedAt := some now },
           ⟨s.user.id, s.user.balanceCents - (s.order.chargeCents : Int)⟩,
           s.stats⟩,
         .chargedSuccess s.order.chargeCents
           (s.user.balanceCents - (s.order.chargeCents : Int)))) := by
  constructor
  · intro hlt
    simp [closeButtonHandler, h, hlt]
  · intro hge
    simp [closeButtonHandler, h, not_lt.mpr hge]

/-- C1 witness: on order O2 (charge = 500, balance = 1000) resolve-success
debits to 500 and marks the order delivered; on order O1 (charge = 500,
balance = 300) it fails with `InsufficientFunds` and changes nothing. -/
theorem resolveSuccess_correct_witness :
    (closeButtonHandler .success 42
        ⟨⟨['O', '2'], 1, 500, .queued, false, none, none, none, none⟩,
         ⟨1, 1000⟩, ⟨0, 0⟩⟩ =
      (⟨⟨['O', '2'], 1, 500, .delivered, true, none, none, none, some 42⟩,
        ⟨1, 500⟩, ⟨0, 0⟩⟩,
       .chargedSuccess 500 500)) ∧
    (closeButtonHandler .success 42
        ⟨⟨['O', '1'], 1, 500, .queued, false, none, none, none, none⟩,
         ⟨1, 300⟩, ⟨0, 0⟩⟩ =
      (⟨⟨['O', '1'], 1, 500, .queued, false, none, none, none, none⟩,
        ⟨1, 300⟩, ⟨0, 0⟩⟩,
       .insufficientFunds)) :=
  ⟨(resolveSuccess_correct_amended
      ⟨⟨['O', '2'], 1, 500, .queued, false, none, none, none, none⟩,
       ⟨1, 1000⟩, ⟨0, 0⟩⟩ 42 rfl).2 (by decide),
   (resolveSuccess_correct_amended
      ⟨⟨['O', '1'], 1, 500, .queued, false, none, none, none, none⟩,
       ⟨1, 300⟩, ⟨0, 0⟩⟩ 42 rfl).1 (by decide)⟩

/-- C1 counterexample: a successful resolve-success (charge = 500,
balance = 1000, today's success counter at 0) completes the charge but
leaves the success counter at 0, where the claim demands it become 1:
the `close` button handler contains no `DailyStats` update
(`updateDailyStats` is only reached from `sendOrderNotification`). -/
theorem resolveSuccess_counter_not_incremented :
    (closeButtonHandler .success 42
        ⟨⟨['O', '2'], 1, 500, .queued, false, none, none, none, none⟩,
         ⟨1, 1000⟩, ⟨0, 0⟩⟩).2 = .chargedSuccess 500 500 ∧
    (closeButtonHandler .success 42
        ⟨⟨['O', '2'], 1, 500, .queued, false, none, none, none, none⟩,
         ⟨1, 1000⟩, ⟨0, 0⟩⟩).1.stats.successCount = 0 := by
  decide

/-- C3: resolving an already-charged order again is NOT a no-op: a second
Success click on a delivered, charged order falls into the handler's
`else` branch, which overwrites `status` to `failed`, resets `charged` to
`false`, restamps `completedAt`, and answers "marked as SUCCESS … No
charges applied" rather than already-complete.  Only the balance is left
alone (no double debit). -/
theorem repeatedResolveSuccess_flips_to_failed :
    (closeButtonHandler .success 99
        ⟨⟨['O', '2'], 1, 500, .delivered, true, none, none, none, some 42⟩,
         ⟨1, 500⟩, ⟨0, 0⟩⟩) =
      (⟨⟨['O', '2'], 1, 500, .failed, false, none, none, none, some 99⟩,
        ⟨1, 500⟩, ⟨0, 0⟩⟩,
       .noCharge "SUCCESS") ∧
    (⟨['O', '2'], 1, 500, .failed, false, none, none, none, some 99⟩ : Order) ≠
      ⟨['O', '2'], 1, 500, .delivered, true, none, none, none, some 42⟩ := by
  decide

/-- Helper for C4: each ticket-lifecycle operation preserves the invariant
`charged = true → status = delivered`. -/
lemma applyTicketOp_preserves_inv (s : SysState) (op : TicketOp)
    (h : s.order.charged = true → s.order.status = .delivered) :
    (applyTicketOp s op).order.charged = true →
      (applyTicketOp s op).order.status = .delivered := by
  cases op with
  | createTicket ch =>
    by_cases hg : s.order.status == OrderStatus.payment_verified &&
        s.order.discordChannelId == none
    · intro hch
      simp only [applyTicketOp, hg, if_true] at hch ⊢
      have hst : s.order.status = .payment_verified := by
        have := (Bool.and_eq_true _ _).mp hg
        simpa using this.1
      have := h (by simpa using hch)
      rw [hst] at this
      exact absurd this (by decide)
    · simp only [applyTicketOp, hg, if_false]
      exact h
  | resolveSuccess t =>
    simp only [applyTicketOp]
    unfold closeButtonHandler
    by_cases hc : s.order.charged
    · simp [hc]
    · simp only [Bool.not_eq_true] at hc
      by_cases hb : s.user.balanceCents < (s.order.chargeCents : Int)
      · simp [hc, hb]
      · simp [hc, hb]
  | resolveFail t =>
    simp [applyTicketOp, closeButtonHandler]

/-- C4 (amended): every order reachable from an initial uncharged order by
ticket-creation, resolve-success and resolve-failure operations satisfies
`charged = true → status = delivered`.  (The original claim also required
the assigned-card reference to be non-null; that part fails, see the
counterexample — no resolve path checks or sets `assignedVccId`.) -/
theorem charged_implies_delivered (s0 : SysState) (ops : List TicketOp)
    (h0 : s0.order.charged = false) :
    (runOps s0 ops).order.charged = true →
      (runOps s0 ops).order.status = .delivered := by
  have inv : ∀ (l : List TicketOp) (s : SysState),
      (s.order.charged = true → s.order.status = .delivered) →
      (runOps s l).order.charged = true →
        (runOps s l).order.status = .delivered := by
    intro l
    induction l with
    | nil => intro s hs; simpa [runOps] using hs
    | cons op rest ih =>
      intro s hs
      have : runOps s (op :: rest) = runOps (applyTicketOp s op) rest := by
        simp [runOps]
      rw [this]
      exact ih _ (applyTicketOp_preserves_inv s op hs)
  exact inv ops s0 (fun hc => absurd hc (by simp [h0]))

/-- C4 witness: a concrete run — create the ticket, then resolve-success —
ends charged, and the theorem yields `status = delivered` there. -/
theorem charged_implies_delivered_witness :
    (runOps ⟨⟨['O', '1'], 1, 500, .payment_verified, false, none, none, none, none⟩,
             ⟨1, 1000⟩, ⟨0, 0⟩⟩
        [.createTicket ['c', 'h'], .resolveSuccess 7]).order.status = .delivered :=
  charged_implies_delivered
    ⟨⟨['O', '1'], 1, 500, .payment_verified, false, none, none, none, none⟩,
     ⟨1, 1000⟩, ⟨0, 0⟩⟩
    [.createTicket ['c', 'h'], .resolveSuccess 7] rfl (by decide)

/-- C4 counterexample: from an initial uncharged order with no assigned
card and a sufficiently funded user, a single resolve-success reaches a
state with `charged = true` and `assignedVccId = none`, refuting the
claim's "the order's assigned-card reference is non-null". -/
theorem charged_with_null_assignedVcc :
    (runOps ⟨⟨['O', '1'], 1, 500, .payment_verified, false, none, none, none, none⟩,
             ⟨1, 1000⟩, ⟨0, 0⟩⟩
        [.resolveSuccess 7]).order.charged = true ∧
    (runOps ⟨⟨['O', '1'], 1, 500, .payment_verified, false, none, none, none, none⟩,
             ⟨1, 1000⟩, ⟨0, 0⟩⟩
        [.resolveSuccess 7]).order.assignedVccId = none := by
  decide

/-! ## Theorems about the card allocator (claims C5, C6) -/

/-- Equality of `Except` results is decidable, so that witness theorems can
evaluate the allocator on concrete pools. -/
instance instDecEqExcept {ε α : Type} [DecidableEq ε] [DecidableEq α] :
    DecidableEq (Except ε α) := fun x y =>
  match x, y with
  | .error e, .error f => decidable_of_iff (e = f) (by simp)
  | .ok a, .ok b => decidable_of_iff (a = b) (by simp)
  | .error _, .ok _ => isFalse (by simp)
  | .ok _, .error _ => isFalse (by simp)

/-- `oldestFirst` of a nonempty list is `some`. -/
lemma oldestFirst_eq_none {l : List VirtualCard} :
    oldestFirst l = none ↔ l = [] := by
  cases l with
  | nil => simp [oldestFirst]
  | cons c rest =>
    simp only [oldestFirst]
    constructor
    · intro h
      cases hr : oldestFirst rest with
      | none => rw [hr] at h; simp at h
      | some b =>
        rw [hr] at h
        by_cases hcomp : b.createdAt < c.createdAt <;> simp [hcomp] at h
    · intro h
      exact absurd h (by simp)

/-- `oldestFirst` returns an element of the list. -/
lemma oldestFirst_mem : ∀ {l : List VirtualCard} {c : VirtualCard},
    oldestFirst l = some c → c ∈ l := by
  intro l
  induction l with
  | nil => intro c h; simp [oldestFirst] at h
  | cons a rest ih =>
    intro c h
    simp only [oldestFirst] at h
    cases hr : oldestFirst rest with
    | none =>
      rw [hr] at h
      simp at h
      simp [h]
    | some b =>
      rw [hr] at h
      by_cases hcomp : b.createdAt < a.createdAt
      · simp only [hcomp, if_true] at h
        have : b = c := by simpa using h
        exact List.mem_cons_of_mem a (ih (this ▸ hr))
      · simp only [hcomp, if_false] at h
        have : a = c := by simpa using h
        simp [← this]

/-- `oldestFirst` returns a minimum by `createdAt`. -/
lemma oldestFirst_min : ∀ {l : List VirtualCard} {c : VirtualCard},
    oldestFirst l = some c → ∀ b ∈ l, c.createdAt ≤ b.createdAt := by
  intro l
  induction l with
  | nil => intro c h; simp [oldestFirst] at h
  | cons a rest ih =>
    intro c h b hb
    simp only [oldestFirst] at h
    cases hr : oldestFirst rest with
    | none =>
      rw [hr] at h
      simp at h
      have : rest = [] := oldestFirst_eq_none.mp hr
      subst this
      simp at hb
      simp [h, hb]
    | some m =>
      rw [hr] at h
      by_cases hcomp : m.createdAt < a.createdAt
      · simp only [hcomp, if_true] at h
        have hc : m = c := by simpa using h
        subst hc
        rcases List.mem_cons.mp hb with hba | hbr
        · subst hba; omega
        · exact ih hr b hbr
      · simp only [hcomp, if_false] at h
        have hc : a = c := by simpa using h
        subst hc
        rcases List.mem_cons.mp hb with hba | hbr
        · subst hba
          exact Nat.le_refl _
        · have := ih hr b hbr
          omega

/-- C5: `getUnusedVcc` fails with `PoolExhausted` exactly when no unused
card exists; otherwise it returns, without mutating the pool, a card that
is unused, belongs to the pool, and is strictly older than every other
unused card (hence the unique oldest unused card), assuming creation
times are pairwise distinct. -/
theorem getUnusedVcc_spec (pool : List VirtualCard)
    (hdist : pool.Pairwise fun a b => a.createdAt ≠ b.createdAt) :
    (getUnusedVcc pool = .error .poolExhausted ↔
      ∀ c ∈ pool, c.status ≠ .unused) ∧
    (∀ c pool', getUnusedVcc pool = .ok (c, pool') →
      pool' = pool ∧ c ∈ pool ∧ c.status = .unused ∧
      ∀ b ∈ pool, b.status = .unused → b ≠ c →
        c.createdAt < b.createdAt) := by
  constructor
  · unfold getUnusedVcc findOldestUnused
    cases ho : oldestFirst (pool.filter fun c => c.status == .unused) with
    | none =>
      have hemp : pool.filter (fun c => c.status == .unused) = [] :=
        oldestFirst_eq_none.mp ho
      constructor
      · intro _ c hc hs
        have : c ∈ pool.filter (fun c => c.status == .unused) := by
          simp [List.mem_filter, hc, hs]
        simp_all
      · intro _
        rfl
    | some c =>
      constructor
      · intro h
        exact absurd h (by simp)
      · intro h
        exfalso
        have hmem := oldestFirst_mem ho
        have := List.mem_filter.mp hmem
        exact h c this.1 (by simpa using this.2)
  · intro c pool' h
    unfold getUnusedVcc findOldestUnused at h
    cases ho : oldestFirst (pool.filter fun d => d.status == .unused) with
    | none =>
      rw [ho] at h
      exact absurd h (by simp)
    | some m =>
      rw [ho] at h
      simp only [Except.ok.injEq, Prod.mk.injEq] at h
      obtain ⟨hc, hp⟩ := h
      subst hp
      rw [← hc]
      have hmem := oldestFirst_mem ho
      have hf := List.mem_filter.mp hmem
      refine ⟨rfl, hf.1, by simpa using hf.2, ?_⟩
      intro b hb hbs hbc
      have hble : m.createdAt ≤ b.createdAt :=
        oldestFirst_min ho b (List.mem_filter.mpr ⟨hb, by simp [hbs]⟩)
      have hne : m.createdAt ≠ b.createdAt := by
        have hsymm : Symmetric fun a b : VirtualCard => a.createdAt ≠ b.createdAt :=
          fun a b hab => hab.symm
        exact (hdist.forall hsymm) hf.1 hb (fun he => hbc he.symm)
      omega

/-- C5 witness: in a pool of one used and two unused cards with distinct
creation times, `getUnusedVcc` returns the older unused card and leaves
the pool alone. -/
theorem getUnusedVcc_spec_witness :
    [(⟨1, ['a'], .used, some 9, some ['O'], 1⟩ : VirtualCard),
     ⟨2, ['b'], .unused, none, none, 3⟩,
     ⟨3, ['c'], .unused, none, none, 8⟩] =
      [⟨1, ['a'], .used, some 9, some ['O'], 1⟩,
       ⟨2, ['b'], .unused, none, none, 3⟩,
       ⟨3, ['c'], .unused, none, none, 8⟩] ∧
    (⟨2, ['b'], .unused, none, none, 3⟩ : VirtualCard) ∈
      [(⟨1, ['a'], .used, some 9, some ['O'], 1⟩ : VirtualCard),
       ⟨2, ['b'], .unused, none, none, 3⟩,
       ⟨3, ['c'], .unused, none, none, 8⟩] ∧
    (⟨2, ['b'], .unused, none, none, 3⟩ : VirtualCard).status = .unused ∧
    ∀ b ∈ [(⟨1, ['a'], .used, some 9, some ['O'], 1⟩ : VirtualCard),
           ⟨2, ['b'], .unused, none, none, 3⟩,
           ⟨3, ['c'], .unused, none, none, 8⟩],
      b.status = .unused → b ≠ ⟨2, ['b'], .unused, none, none, 3⟩ →
        (⟨2, ['b'], .unused, none, none, 3⟩ : VirtualCard).createdAt < b.createdAt :=
  (getUnusedVcc_spec
      [⟨1, ['a'], .used, some 9, some ['O'], 1⟩,
       ⟨2, ['b'], .unused, none, none, 3⟩,
       ⟨3, ['c'], .unused, none, none, 8⟩]
      (by decide)).2
    ⟨2, ['b'], .unused, none, none, 3⟩ _ (by decide)

/-- C6: the find-oldest-unused / mark-used sequence is a read-then-write
race, not an atomic conditional update.  With a pool of M = 1 unused card
and N = 2 allocation attempts whose reads both happen before either
write, both attempts are returned the same card and both writes succeed
(`findByIdAndUpdate` matches on id only, not on `status: 'unused'`), so
2 ≠ M attempts succeed, none fails with `PoolExhausted`, and the card
ends up referenced by the later order only, having been handed to both.
Moreover `assignVccToOrder` never marks the card used at all, so even two
fully sequential assignments return the same card. -/
theorem allocation_race_double_allocates :
    getUnusedVcc [⟨7, ['c'], .unused, none, none, 5⟩] =
      .ok (⟨7, ['c'], .unused, none, none, 5⟩,
           [⟨7, ['c'], .unused, none, none, 5⟩]) ∧
    markVccAsUsed [⟨7, ['c'], .unused, none, none, 5⟩] 7 10 ['A'] =
      .ok (⟨7, ['c'], .used, some 10, some ['A'], 5⟩,
           [⟨7, ['c'], .used, some 10, some ['A'], 5⟩]) ∧
    markVccAsUsed [⟨7, ['c'], .used, some 10, some ['A'], 5⟩] 7 11 ['B'] =
      .ok (⟨7, ['c'], .used, some 11, some ['B'], 5⟩,
           [⟨7, ['c'], .used, some 11, some ['B'], 5⟩]) ∧
    assignVccToOrder [⟨7, ['c'], .unused, none, none, 5⟩]
        ⟨['1'], 1, 500, .queued, false, none, none, none, none⟩ =
      .ok ((⟨['1'], 1, 500, .queued, false, none, some 7, some ['c'], none⟩,
            ⟨7, ['c'], .unused, none, none, 5⟩),
           [⟨7, ['c'], .unused, none, none, 5⟩]) := by
  decide

/-! ## Theorems about the inventory alert monitor (claim C9) -/

/-- An alert is sent only with the timestamp set to the send time. -/
lemma check_sent_lastAlert (u t : Nat) (ok : Bool) (st : AlertState) :
    (checkVccInventoryAndAlert u t ok st).2 = true →
      (checkVccInventoryAndAlert u t ok st).1.lastAlertSent = t := by
  unfold checkVccInventoryAndAlert
  split_ifs <;> simp

/-- An alert is sent only when the cooldown had elapsed. -/
lemma check_sent_cooldown (u t : Nat) (ok : Bool) (st : AlertState) :
    (checkVccInventoryAndAlert u t ok st).2 = true →
      alertCooldown ≤ t - st.lastAlertSent := by
  unfold checkVccInventoryAndAlert
  split_ifs with h1 h2 h3
  · simp
  · intro _
    omega
  · simp
  · simp

/-- C9: (a) two monitor checks within one cooldown of each other, both
seeing the unused count at or below the threshold, send at most one
alert; (b) whenever a check sends no alert it leaves `lastAlertSent`
unchanged; (c) a forced `/vcc-check` that finds the inventory above the
threshold returns without touching `lastAlertSent`. -/
theorem alert_cooldown_spec :
    (∀ (st : AlertState) (t1 t2 u1 u2 : Nat) (ok1 ok2 : Bool),
      t1 ≤ t2 → t2 - t1 < alertCooldown →
      u1 ≤ lowThreshold → u2 ≤ lowThreshold →
      ¬((checkVccInventoryAndAlert u1 t1 ok1 st).2 = true ∧
        (checkVccInventoryAndAlert u2 t2 ok2
          (checkVccInventoryAndAlert u1 t1 ok1 st).1).2 = true)) ∧
    (∀ (u t : Nat) (ok : Bool) (st : AlertState),
      (checkVccInventoryAndAlert u t ok st).2 = false →
        (checkVccInventoryAndAlert u t ok st).1 = st) ∧
    (∀ (u t : Nat) (ok : Bool) (st : AlertState),
      lowThreshold < u → vccCheckCommand u t ok st = (st, false)) := by
  refine ⟨?_, ?_, ?_⟩
  · rintro st t1 t2 u1 u2 ok1 ok2 h12 hlt _ _ ⟨h1, h2⟩
    have hs1 := check_sent_lastAlert u1 t1 ok1 st h1
    have hs2 := check_sent_cooldown u2 t2 ok2 _ h2
    rw [hs1] at hs2
    omega
  · intro u t ok st
    unfold checkVccInventoryAndAlert
    split_ifs <;> simp
  · intro u t ok st hu
    unfold vccCheckCommand
    have : ¬ u ≤ lowThreshold := by omega
    simp [this]

/-- C9 witness: with the threshold at 10, a first low-inventory check at
t = 3600000 and a second one a millisecond later send at most one alert,
and a forced check with 42 unused cards leaves the state untouched. -/
theorem alert_cooldown_spec_witness :
    ¬((checkVccInventoryAndAlert 5 3600000 true ⟨0⟩).2 = true ∧
      (checkVccInventoryAndAlert 5 3600001 true
        (checkVccInventoryAndAlert 5 3600000 true ⟨0⟩).1).2 = true) ∧
    vccCheckCommand 42 3600000 true ⟨123⟩ = (⟨123⟩, false) :=
  ⟨alert_cooldown_spec.1 ⟨0⟩ 3600000 3600001 5 5 true true (by decide)
      (by decide) (by decide) (by decide),
   alert_cooldown_spec.2.2 42 3600000 true ⟨123⟩ (by decide)⟩

/-! ## Theorems about strict batch ingestion (claim C2) -/

/-- Counting helper: a `filterMap` that keeps exactly the elements failing
`p` has as many results as there are such elements. -/
lemma length_filterMap_skip {α β : Type} (f : α → β) (p : α → Bool) :
    ∀ l : List α,
      (l.filterMap fun a => if p a then none else some (f a)).length =
        l.countP fun a => !p a := by
  intro l
  induction l with
  | nil => simp
  | cons a rest ih =>
    by_cases hp : p a <;> simp [List.filterMap_cons, List.countP_cons, hp, ih]

/-- C2: `bulkAddVccsStrict` is all-or-nothing.  If validation reports at
least one format error or at least one duplicate, the store is unchanged
and `added = 0`; if both report lists are empty, it succeeds and appends
exactly one cleaned card per non-blank input line. -/
theorem bulkAddVccsStrict_allOrNothing (store lines : List Str) :
    (((validateVccBatch store lines).errors ≠ [] ∨
      (validateVccBatch store lines).duplicates ≠ []) →
      bulkAddVccsStrict store lines =
        (store, ⟨false, 0, (validateVccBatch store lines).errors,
                 (validateVccBatch store lines).duplicates⟩)) ∧
    ((validateVccBatch store lines).errors = [] ∧
     (validateVccBatch store lines).duplicates = [] →
      bulkAddVccsStrict store lines =
        (store ++ lines.filterMap
          (fun l => if (trim l).isEmpty then none else some (cleanLine l)),
         ⟨true, lines.countP (fun l => !(trim l).isEmpty), [], []⟩)) := by
  constructor
  · intro h
    have hv : (validateVccBatch store lines).valid = false := by
      unfold validateVccBatch at h ⊢
      rcases h with h | h <;> simp_all [List.isEmpty_iff]
    simp [bulkAddVccsStrict, hv]
  · rintro ⟨he, hd⟩
    have hv : (validateVccBatch store lines).valid = true := by
      unfold validateVccBatch at he hd ⊢
      simp_all [List.isEmpty_iff]
    simp only [bulkAddVccsStrict, hv, if_true]
    rw [length_filterMap_skip]

/-- The store of the spec's C2 example scenario: 3 persisted cards. -/
def c2Store : List Str :=
  ["1111111111111111,01/26,111,11111,a@a.aa".toList,
   "2222222222222222,02/26,222,22222,b@b.bb".toList,
   "3333333333333333,03/26,333,33333,c@c.cc".toList]

/-- The C2 example batch: 5 lines, line 2 has a 15-digit card number. -/
def c2BatchBad : List Str :=
  ["4444444444444444,04/26,444,44444,d@d.dd".toList,
   "555555555555555,05/26,555,55555,e@e.ee".toList,
   "6666666666666666,06/26,666,66666,f@f.ff".toList,
   "7777777777777777,07/26,777,77777,g@g.gg".toList,
   "8888888888888888,08/26,888,88888,h@h.hh".toList]

/-- The C2 example batch with the malformed line fixed. -/
def c2BatchGood : List Str :=
  ["4444444444444444,04/26,444,44444,d@d.dd".toList,
   "5555555555555555,05/26,555,55555,e@e.ee".toList,
   "6666666666666666,06/26,666,66666,f@f.ff".toList,
   "7777777777777777,07/26,777,77777,g@g.gg".toList,
   "8888888888888888,08/26,888,88888,h@h.hh".toList]

/-- C2 witness: the spec's example scenario — a store of 3 cards and a
batch of 5 lines of which one has a 15-digit card number — persists
nothing and reports `added = 0`; the same batch with the line fixed
persists all 5. -/
theorem bulkAddVccsStrict_allOrNothing_witness :
    (bulkAddVccsStrict c2Store c2BatchBad).1 = c2Store ∧
    (bulkAddVccsStrict c2Store c2BatchBad).2.added = 0 ∧
    (bulkAddVccsStrict c2Store c2BatchGood).2.added = 5 := by
  refine ⟨?_, ?_, ?_⟩
  · exact congrArg Prod.fst
      ((bulkAddVccsStrict_allOrNothing c2Store c2BatchBad).1 (Or.inl (by decide)))
  · exact congrArg (fun r => r.2.added)
      ((bulkAddVccsStrict_allOrNothing c2Store c2BatchBad).1 (Or.inl (by decide)))
  · have h := congrArg (fun r => r.2.added)
      ((bulkAddVccsStrict_allOrNothing c2Store c2BatchGood).2 (by decide))
    simpa using h

/-! ## Theorems about the line format validator (claim C7) -/

/-- The claim's reading of "email-shaped": the string contains an `'@'`
with a `'.'` somewhere after it.  Stated from the claim's wording, for
comparison against the source's stricter regex. -/
def emailShapedClaim : Str → Bool
  | [] => false
  | c :: rest => if c = '@' then rest.contains '.' else emailShapedClaim rest

/-- The claim's acceptance predicate, stated from its wording: exactly
5 comma-separated fields, 16-digit card number, `MM/YY` with month 1-12,
3-digit CVV, 5-digit ZIP, and an email-shaped fifth field in the sense of
`emailShapedClaim`. -/
def claimFormatAccepts (s : Str) : Bool :=
  match (splitComma s).map trim with
  | [cardNumber, expDate, cvv, zipCode, email] =>
    allDigitsLen 16 cardNumber && expShape expDate &&
      decide (1 ≤ expMonth expDate) && decide (expMonth expDate ≤ 12) &&
      allDigitsLen 3 cvv && allDigitsLen 5 zipCode && emailShapedClaim email
  | _ => false

/-- C7 counterexample: the line
`1234567890123456,12/25,123,12345,a@b.` satisfies every condition of the
claim — in particular its fifth field contains an `'@'` with a `'.'`
after it — yet `validateVccFormat` rejects it: the source's email regex
`^[^\s@]+@[^\s@]+\.[^\s@]+$` also demands a nonempty segment after the
dot. -/
theorem validateVccFormat_email_counterexample :
    claimFormatAccepts ("1234567890123456,12/25,123,12345,a@b.".toList) = true ∧
    emailShapedClaim ("a@b.".toList) = true ∧
    (validateVccFormat ("1234567890123456,12/25,123,12345,a@b.".toList) 1).valid
      = false := by
  decide

/-- A line is valid exactly when no check of `vccFormatError` fires. -/
lemma validateVccFormat_valid_iff (s : Str) (n : Nat) :
    (validateVccFormat s n).valid = true ↔ vccFormatError s = none := by
  unfold validateVccFormat
  cases h : vccFormatError s <;> simp

/-- `vccFormatError` fires exactly when one of the field conditions
fails. -/
lemma vccFormatError_eq_none_iff (s : Str) :
    vccFormatError s = none ↔
      ∃ cardNumber expDate cvv zipCode email,
        (splitComma s).map trim = [cardNumber, expDate, cvv, zipCode, email] ∧
        allDigitsLen 16 cardNumber = true ∧
        expShape expDate = true ∧
        1 ≤ expMonth expDate ∧ expMonth expDate ≤ 12 ∧
        allDigitsLen 3 cvv = true ∧
        allDigitsLen 5 zipCode = true ∧
        emailOk email = true := by
  simp only [vccFormatError]
  rcases hp : (splitComma s).map trim with
    _ | ⟨cn, _ | ⟨ed, _ | ⟨cv, _ | ⟨zp, _ | ⟨em, _ | ⟨x, xs⟩⟩⟩⟩⟩⟩
  · simp
  · simp
  · simp
  · simp
  · simp
  · dsimp only
    constructor
    · intro h
      refine ⟨cn, ed, cv, zp, em, rfl, ?_⟩
      split_ifs at h with h1 h2 h3 h4 h5 h6
      all_goals try simp at h
      simp at h1 h2 h3 h4 h5 h6
      exact ⟨h1, h2, by omega, h3.2, h4, h5, h6⟩
    · rintro ⟨a, b, c, d, e, heq, hcn, hed, hm1, hm2, hcv, hzp, hem⟩
      cases heq
      simp [hcn, hed, hcv, hzp, hem]
      omega
  · simp

/-- C7 (amended): `validateVccFormat` accepts a line iff it splits into
exactly 5 comma-separated (trimmed) fields with a 16-digit card number,
an `MM/YY` expiration whose month is 1-12, a 3-digit CVV, a 5-digit ZIP,
and a fifth field matching the source's email regex (`emailOk`: exactly
one `'@'`, no whitespace, nonempty local part, and a `'.'` strictly
inside the domain part — stricter than the claim's "contains an `'@'`
with a `'.'` after it", see the counterexample); and every rejected line
yields a result tagged with that line's number and raw text. -/
theorem validateVccFormat_characterization (s : Str) (n : Nat) :
    ((validateVccFormat s n).valid = true ↔
      ∃ cardNumber expDate cvv zipCode email,
        (splitComma s).map trim = [cardNumber, expDate, cvv, zipCode, email] ∧
        allDigitsLen 16 cardNumber = true ∧
        expShape expDate = true ∧
        1 ≤ expMonth expDate ∧ expMonth expDate ≤ 12 ∧
        allDigitsLen 3 cvv = true ∧
        allDigitsLen 5 zipCode = true ∧
        emailOk email = true) ∧
    ((validateVccFormat s n).valid = false →
      (validateVccFormat s n).lineNumber = some n ∧
      (validateVccFormat s n).card = some s) := by
  constructor
  · rw [validateVccFormat_valid_iff]
    exact vccFormatError_eq_none_iff s
  · intro h
    unfold validateVccFormat at h ⊢
    cases he : vccFormatError s with
    | none => rw [he] at h; simp at h
    | some m => simp

/-- C7 witness: the characterization applied to one accepted and one
rejected concrete line. -/
theorem validateVccFormat_characterization_witness :
    (validateVccFormat ("1234567890123456,12/25,123,12345,a@b.c".toList) 7).valid
      = true ∧
    (validateVccFormat ("oops".toList) 3).lineNumber = some 3 ∧
    (validateVccFormat ("oops".toList) 3).card = some ("oops".toList) :=
  ⟨(validateVccFormat_characterization
      ("1234567890123456,12/25,123,12345,a@b.c".toList) 7).1.mpr
      ⟨"1234567890123456".toList, "12/25".toList, "123".toList,
       "12345".toList, "a@b.c".toList, by decide, by decide, by decide,
       by decide, by decide, by decide, by decide, by decide⟩,
   (validateVccFormat_characterization ("oops".toList) 3).2 (by decide)⟩

/-! ## Line numbering and classification in batch validation (C8, C10) -/

/-- Inversion: a `formatError` outcome comes from a non-blank line whose
format check failed, and carries that line's number and trimmed text. -/
lemma processLine_formatError_inv {store seen : List Str} {raw : Str} :
    ∀ {n : Nat} {e : ValidationResult},
    processLine store seen raw n = .formatError e →
      trim raw ≠ [] ∧ ∃ msg, vccFormatError (trim raw) = some msg ∧
        e = ⟨false, some n, some msg, some (trim raw)⟩ := by
  intro n e h
  unfold processLine at h
  by_cases hb : (trim raw).isEmpty
  · simp [hb] at h
  · cases hv : vccFormatError (trim raw) with
    | some msg =>
      simp only [Bool.not_eq_true] at hb
      simp only [hb, Bool.false_eq_true, if_false, hv] at h
      refine ⟨by simpa [List.isEmpty_iff] using hb, msg, rfl, ?_⟩
      simpa [LineOutcome.formatError.injEq] using h.symm
    | none =>
      simp only [Bool.not_eq_true] at hb
      simp only [hb, Bool.false_eq_true, if_false, hv] at h
      split_ifs at h

/-- Inversion: a `dupInFile` outcome comes from a non-blank, format-valid
line whose card number is already in `seen`. -/
lemma processLine_dupInFile_inv {store seen : List Str} {raw : Str} :
    ∀ {n : Nat} {d : DupEntry},
    processLine store seen raw n = .dupInFile d →
      trim raw ≠ [] ∧ vccFormatError (trim raw) = none ∧
        seen.contains (cardNumberOf (trim raw)) = true ∧
        d = ⟨n, dupInFileMsg, trim raw⟩ := by
  intro n d h
  unfold processLine at h
  by_cases hb : (trim raw).isEmpty
  · simp [hb] at h
  · simp only [Bool.not_eq_true] at hb
    cases hv : vccFormatError (trim raw) with
    | some msg => simp [hb, hv] at h
    | none =>
      simp only [hb, Bool.false_eq_true, if_false, hv] at h
      refine ⟨by simpa [List.isEmpty_iff] using hb, rfl, ?_⟩
      split_ifs at h with hc hs
      · exact ⟨hc, by simpa [LineOutcome.dupInFile.injEq] using h.symm⟩

/-- Inversion: a `dupInDb` outcome comes from a non-blank, format-valid
line, not an in-file duplicate, whose cleaned text is in the store. -/
lemma processLine_dupInDb_inv {store seen : List Str} {raw : Str} :
    ∀ {n : Nat} {d : DupEntry},
    processLine store seen raw n = .dupInDb d →
      trim raw ≠ [] ∧ vccFormatError (trim raw) = none ∧
        seen.contains (cardNumberOf (trim raw)) = false ∧
        store.contains (trim (stripHeadComma (trim raw))) = true ∧
        d = ⟨n, dupInDbMsg, trim raw⟩ := by
  intro n d h
  unfold processLine at h
  by_cases hb : (trim raw).isEmpty
  · simp [hb] at h
  · simp only [Bool.not_eq_true] at hb
    cases hv : vccFormatError (trim raw) with
    | some msg => simp [hb, hv] at h
    | none =>
      simp only [hb, Bool.false_eq_true, if_false, hv] at h
      refine ⟨by simpa [List.isEmpty_iff] using hb, rfl, ?_⟩
      split_ifs at h with hc hs
      · exact ⟨by simpa using hc, hs,
          by simpa [LineOutcome.dupInDb.injEq] using h.symm⟩

/-- Forward: a non-blank line failing the format check is classified as a
format error tagged with its number and trimmed text. -/
lemma processLine_of_invalid {store seen : List Str} {raw : Str} {msg : String}
    (hb : trim raw ≠ []) (hv : vccFormatError (trim raw) = some msg) (n : Nat) :
    processLine store seen raw n =
      .formatError ⟨false, some n, some msg, some (trim raw)⟩ := by
  unfold processLine
  have hb' : (trim raw).isEmpty = false := by simpa [List.isEmpty_iff] using hb
  simp [hb', hv]

/-- Forward: a non-blank, format-valid line whose card number is in `seen`
is classified as an in-file duplicate. -/
lemma processLine_of_seen {store seen : List Str} {raw : Str}
    (hb : trim raw ≠ []) (hv : vccFormatError (trim raw) = none)
    (hc : seen.contains (cardNumberOf (trim raw)) = true) (n : Nat) :
    processLine store seen raw n = .dupInFile ⟨n, dupInFileMsg, trim raw⟩ := by
  unfold processLine
  have hb' : (trim raw).isEmpty = false := by simpa [List.isEmpty_iff] using hb
  have hc' : cardNumberOf (trim raw) ∈ seen := by simpa using hc
  simp [hb', hv, hc']

/-- The evolution of `seenCardNumbers` over the first `j` lines. -/
def seenAt (seen : List Str) : List Str → Nat → List Str
  | _, 0 => seen
  | [], _ + 1 => seen
  | raw :: rest, j + 1 => seenAt (nextSeen seen raw) rest j

/-- `nextSeen` only grows the seen set. -/
lemma mem_nextSeen {seen : List Str} {raw x : Str} (hx : x ∈ seen) :
    x ∈ nextSeen seen raw := by
  unfold nextSeen
  by_cases hb : (trim raw).isEmpty
  · simp [hb, hx]
  · simp only [Bool.not_eq_true] at hb
    cases hv : vccFormatError (trim raw) with
    | some m => simp [hb, hv, hx]
    | none =>
      simp only [hb, Bool.false_eq_true, if_false, hv]
      split_ifs <;> simp [hx]

/-- `seenAt` only grows the seen set. -/
lemma mem_seenAt {x : Str} :
    ∀ (rest : List Str) (seen : List Str) (j : Nat), x ∈ seen →
      x ∈ seenAt seen rest j := by
  intro rest
  induction rest with
  | nil => intro seen j hx; cases j <;> simpa [seenAt]
  | cons raw rest ih =>
    intro seen j hx
    cases j with
    | zero => simpa [seenAt]
    | succ k => exact ih (nextSeen seen raw) k (mem_nextSeen hx)

/-- After processing a non-blank, format-valid line, its card number is in
the seen set. -/
lemma cardNumber_mem_nextSeen {seen : List Str} {raw : Str}
    (hb : trim raw ≠ []) (hv : vccFormatError (trim raw) = none) :
    cardNumberOf (trim raw) ∈ nextSeen seen raw := by
  unfold nextSeen
  have hb' : (trim raw).isEmpty = false := by simpa [List.isEmpty_iff] using hb
  simp only [hb', Bool.false_eq_true, if_false, hv]
  split_ifs with hc
  · simpa using hc
  · exact List.mem_cons_self _ _

/-- The card number of any earlier non-blank, format-valid line is in the
evolved seen set. -/
lemma seenAt_contains_earlier :
    ∀ (rest : List Str) (seen : List Str) (j' j : Nat) (h' : j' < rest.length),
      j' < j → trim (rest.get ⟨j', h'⟩) ≠ [] →
      vccFormatError (trim (rest.get ⟨j', h'⟩)) = none →
      cardNumberOf (trim (rest.get ⟨j', h'⟩)) ∈ seenAt seen rest j := by
  intro rest
  induction rest with
  | nil => intro seen j' j h'; exact absurd h' (by simp)
  | cons raw rest ih =>
    intro seen j' j h' hlt hb hv
    cases j with
    | zero => omega
    | succ k =>
      cases j' with
      | zero =>
        simpa [seenAt] using
          mem_seenAt rest (nextSeen seen raw) k
            (cardNumber_mem_nextSeen (by simpa using hb) (by simpa using hv))
      | succ l =>
        have h'' : l < rest.length := by simpa using h'
        simpa [seenAt] using
          ih (nextSeen seen raw) l k h'' (by omega)
            (by simpa using hb) (by simpa using hv)

/-- Unfolding equation of `batchGo` on a cons cell. -/
lemma batchGo_cons (store : List Str) (raw : Str) (rest : List Str)
    (i : Nat) (seen : List Str) :
    batchGo store (raw :: rest) i seen =
      match processLine store seen raw (i + 1) with
      | .formatError e =>
        (e :: (batchGo store rest (i + 1) (nextSeen seen raw)).1,
         (batchGo store rest (i + 1) (nextSeen seen raw)).2)
      | .dupInFile d =>
        ((batchGo store rest (i + 1) (nextSeen seen raw)).1,
         d :: (batchGo store rest (i + 1) (nextSeen seen raw)).2)
      | .dupInDb d =>
        ((batchGo store rest (i + 1) (nextSeen seen raw)).1,
         d :: (batchGo store rest (i + 1) (nextSeen seen raw)).2)
      | _ => batchGo store rest (i + 1) (nextSeen seen raw) := rfl

/-- The tail's report entries survive into the whole result. -/
lemma batchGo_cons_subset (store : List Str) (raw : Str) (rest : List Str)
    (i : Nat) (seen : List Str) :
    (batchGo store rest (i + 1) (nextSeen seen raw)).1 ⊆
        (batchGo store (raw :: rest) i seen).1 ∧
      (batchGo store rest (i + 1) (nextSeen seen raw)).2 ⊆
        (batchGo store (raw :: rest) i seen).2 := by
  rw [batchGo_cons]
  cases hpl : processLine store seen raw (i + 1) <;> simp only <;>
    exact ⟨by intro x hx; simp_all, by intro x hx; simp_all⟩

/-- Every error entry of `batchGo` comes from a non-blank line whose
format check failed, at its own 1-based absolute line number. -/
lemma batchGo_errors_source (store : List Str) :
    ∀ (rest : List Str) (i : Nat) (seen : List Str) (e : ValidationResult),
      e ∈ (batchGo store rest i seen).1 →
      ∃ j, ∃ h : j < rest.length,
        e.lineNumber = some (i + j + 1) ∧
        e.card = some (trim (rest.get ⟨j, h⟩)) ∧
        trim (rest.get ⟨j, h⟩) ≠ [] ∧
        vccFormatError (trim (rest.get ⟨j, h⟩)) ≠ none := by
  intro rest
  induction rest with
  | nil => intro i seen e he; simp [batchGo] at he
  | cons raw rest ih =>
    intro i seen e he
    rw [batchGo_cons] at he
    cases hpl : processLine store seen raw (i + 1) with
    | formatError e0 =>
      rw [hpl] at he
      simp only at he
      rcases List.mem_cons.mp he with rfl | hr
      · obtain ⟨hb, msg, hv, he0⟩ := processLine_formatError_inv hpl
        refine ⟨0, by simp, ?_, ?_, by simpa using hb, by simp [hv]⟩
        · simp [he0]
        · simp [he0]
      · obtain ⟨j, hj, h1, h2, h3, h4⟩ := ih (i + 1) (nextSeen seen raw) e hr
        exact ⟨j + 1, by simpa using Nat.succ_lt_succ hj,
          by simpa [Nat.add_assoc, Nat.add_comm 1 j] using h1, h2, h3, h4⟩
    | dupInFile d =>
      rw [hpl] at he
      simp only at he
      obtain ⟨j, hj, h1, h2, h3, h4⟩ := ih (i + 1) (nextSeen seen raw) e he
      exact ⟨j + 1, by simpa using Nat.succ_lt_succ hj,
        by simpa [Nat.add_assoc, Nat.add_comm 1 j] using h1, h2, h3, h4⟩
    | dupInDb d =>
      rw [hpl] at he
      simp only at he
      obtain ⟨j, hj, h1, h2, h3, h4⟩ := ih (i + 1) (nextSeen seen raw) e he
      exact ⟨j + 1, by simpa using Nat.succ_lt_succ hj,
        by simpa [Nat.add_assoc, Nat.add_comm 1 j] using h1, h2, h3, h4⟩
    | blank =>
      rw [hpl] at he
      simp only at he
      obtain ⟨j, hj, h1, h2, h3, h4⟩ := ih (i + 1) (nextSeen seen raw) e he
      exact ⟨j + 1, by simpa using Nat.succ_lt_succ hj,
        by simpa [Nat.add_assoc, Nat.add_comm 1 j] using h1, h2, h3, h4⟩
    | added =>
      rw [hpl] at he
      simp only at he
      obtain ⟨j, hj, h1, h2, h3, h4⟩ := ih (i + 1) (nextSeen seen raw) e he
      exact ⟨j + 1, by simpa using Nat.succ_lt_succ hj,
        by simpa [Nat.add_assoc, Nat.add_comm 1 j] using h1, h2, h3, h4⟩

/-- Every duplicate entry of `batchGo` comes from a non-blank,
format-valid line, at its own 1-based absolute line number, tagged with
one of the two duplicate messages. -/
lemma batchGo_dups_source (store : List Str) :
    ∀ (rest : List Str) (i : Nat) (seen : List Str) (d : DupEntry),
      d ∈ (batchGo store rest i seen).2 →
      ∃ j, ∃ h : j < rest.length,
        d.lineNumber = i + j + 1 ∧
        d.card = trim (rest.get ⟨j, h⟩) ∧
        trim (rest.get ⟨j, h⟩) ≠ [] ∧
        vccFormatError (trim (rest.get ⟨j, h⟩)) = none ∧
        (d.error = dupInFileMsg ∨ d.error = dupInDbMsg) := by
  intro rest
  induction rest with
  | nil => intro i seen d hd; simp [batchGo] at hd
  | cons raw rest ih =>
    intro i seen d hd
    rw [batchGo_cons] at hd
    cases hpl : processLine store seen raw (i + 1) with
    | dupInFile d0 =>
      rw [hpl] at hd
      simp only at hd
      rcases List.mem_cons.mp hd with rfl | hr
      · obtain ⟨hb, hv, _, hd0⟩ := processLine_dupInFile_inv hpl
        exact ⟨0, by simp, by simp [hd0], by simp [hd0],
          by simpa using hb, by simpa using hv, Or.inl (by simp [hd0])⟩
      · obtain ⟨j, hj, h1, h2, h3, h4, h5⟩ := ih (i + 1) (nextSeen seen raw) d hr
        exact ⟨j + 1, by simpa using Nat.succ_lt_succ hj,
          by simpa [Nat.add_assoc, Nat.add_comm 1 j] using h1, h2, h3, h4, h5⟩
    | dupInDb d0 =>
      rw [hpl] at hd
      simp only at hd
      rcases List.mem_cons.mp hd with rfl | hr
      · obtain ⟨hb, hv, _, _, hd0⟩ := processLine_dupInDb_inv hpl
        exact ⟨0, by simp, by simp [hd0], by simp [hd0],
          by simpa using hb, by simpa using hv, Or.inr (by simp [hd0])⟩
      · obtain ⟨j, hj, h1, h2, h3, h4, h5⟩ := ih (i + 1) (nextSeen seen raw) d hr
        exact ⟨j + 1, by simpa using Nat.succ_lt_succ hj,
          by simpa [Nat.add_assoc, Nat.add_comm 1 j] using h1, h2, h3, h4, h5⟩
    | formatError e0 =>
      rw [hpl] at hd
      simp only at hd
      obtain ⟨j, hj, h1, h2, h3, h4, h5⟩ := ih (i + 1) (nextSeen seen raw) d hd
      exact ⟨j + 1, by simpa using Nat.succ_lt_succ hj,
        by simpa [Nat.add_assoc, Nat.add_comm 1 j] using h1, h2, h3, h4, h5⟩
    | blank =>
      rw [hpl] at hd
      simp only at hd
      obtain ⟨j, hj, h1, h2, h3, h4, h5⟩ := ih (i + 1) (nextSeen seen raw) d hd
      exact ⟨j + 1, by simpa using Nat.succ_lt_succ hj,
        by simpa [Nat.add_assoc, Nat.add_comm 1 j] using h1, h2, h3, h4, h5⟩
    | added =>
      rw [hpl] at hd
      simp only at hd
      obtain ⟨j, hj, h1, h2, h3, h4, h5⟩ := ih (i + 1) (nextSeen seen raw) d hd
      exact ⟨j + 1, by simpa using Nat.succ_lt_succ hj,
        by simpa [Nat.add_assoc, Nat.add_comm 1 j] using h1, h2, h3, h4, h5⟩

/-- Total number of report entries (errors and duplicates together)
carrying the line number `n`. -/
def entryCount (n : Nat) (p : List ValidationResult × List DupEntry) : Nat :=
  p.1.countP (fun e => e.lineNumber == some n) +
    p.2.countP (fun d => d.lineNumber == n)

/-- No entry carries a line number at or below the already-consumed
prefix. -/
lemma batchGo_entryCount_zero (store : List Str) :
    ∀ (rest : List Str) (i : Nat) (seen : List Str) (n : Nat), n ≤ i →
      entryCount n (batchGo store rest i seen) = 0 := by
  intro rest
  induction rest with
  | nil => intro i seen n _; simp [batchGo, entryCount]
  | cons raw rest ih =>
    intro i seen n hn
    rw [batchGo_cons]
    have hrec := ih (i + 1) (nextSeen seen raw) n (by omega)
    have hpE : ((some (i + 1) : Option Nat) == some n) = false := by
      simp
      omega
    have hpD : ((i + 1 : Nat) == n) = false := by
      simp
      omega
    cases hpl : processLine store seen raw (i + 1) with
    | formatError e0 =>
      obtain ⟨_, msg, _, he0⟩ := processLine_formatError_inv hpl
      have hl : e0.lineNumber = some (i + 1) := by rw [he0]
      have hite : (if e0.lineNumber == some n then 1 else 0) = 0 := by
        rw [hl]
        simp only [hpE]
        rfl
      simp only [entryCount, List.countP_cons, hite] at hrec ⊢
      omega
    | dupInFile d0 =>
      obtain ⟨_, _, _, hd0⟩ := processLine_dupInFile_inv hpl
      have hl : d0.lineNumber = i + 1 := by rw [hd0]
      have hite : (if d0.lineNumber == n then 1 else 0) = 0 := by
        rw [hl]
        simp only [hpD]
        rfl
      simp only [entryCount, List.countP_cons, hite] at hrec ⊢
      omega
    | dupInDb d0 =>
      obtain ⟨_, _, _, _, hd0⟩ := processLine_dupInDb_inv hpl
      have hl : d0.lineNumber = i + 1 := by rw [hd0]
      have hite : (if d0.lineNumber == n then 1 else 0) = 0 := by
        rw [hl]
        simp only [hpD]
        rfl
      simp only [entryCount, List.countP_cons, hite] at hrec ⊢
      omega
    | blank => exact hrec
    | added => exact hrec

/-- Each line number receives at most one report entry across the two
lists. -/
lemma batchGo_entryCount_le_one (store : List Str) :
    ∀ (rest : List Str) (i : Nat) (seen : List Str) (n : Nat),
      entryCount n (batchGo store rest i seen) ≤ 1 := by
  intro rest
  induction rest with
  | nil => intro i seen n; simp [batchGo, entryCount]
  | cons raw rest ih =>
    intro i seen n
    rw [batchGo_cons]
    by_cases hcur : n = i + 1
    · subst hcur
      have hrec : entryCount (i + 1)
          (batchGo store rest (i + 1) (nextSeen seen raw)) = 0 :=
        batchGo_entryCount_zero store rest (i + 1) (nextSeen seen raw) (i + 1)
          (Nat.le_refl _)
      cases hpl : processLine store seen raw (i + 1) with
      | formatError e0 =>
        have hite : (if e0.lineNumber == some (i + 1) then 1 else 0) ≤ 1 := by
          split_ifs <;> omega
        simp only [entryCount, List.countP_cons] at hrec ⊢
        omega
      | dupInFile d0 =>
        have hite : (if d0.lineNumber == i + 1 then 1 else 0) ≤ 1 := by
          split_ifs <;> omega
        simp only [entryCount, List.countP_cons] at hrec ⊢
        omega
      | dupInDb d0 =>
        have hite : (if d0.lineNumber == i + 1 then 1 else 0) ≤ 1 := by
          split_ifs <;> omega
        simp only [entryCount, List.countP_cons] at hrec ⊢
        omega
      | blank => exact le_trans (le_of_eq hrec) (by omega)
      | added => exact le_trans (le_of_eq hrec) (by omega)
    · have hrec := ih (i + 1) (nextSeen seen raw) n
      have hpE : ((some (i + 1) : Option Nat) == some n) = false := by
        simp
        omega
      have hpD : ((i + 1 : Nat) == n) = false := by
        simp
        omega
      cases hpl : processLine store seen raw (i + 1) with
      | formatError e0 =>
        obtain ⟨_, msg, _, he0⟩ := processLine_formatError_inv hpl
        have hl : e0.lineNumber = some (i + 1) := by rw [he0]
        have hite : (if e0.lineNumber == some n then 1 else 0) = 0 := by
          rw [hl]
          simp only [hpE]
          rfl
        simp only [entryCount, List.countP_cons, hite] at hrec ⊢
        omega
      | dupInFile d0 =>
        obtain ⟨_, _, _, hd0⟩ := processLine_dupInFile_inv hpl
        have hl : d0.lineNumber = i + 1 := by rw [hd0]
        have hite : (if d0.lineNumber == n then 1 else 0) = 0 := by
          rw [hl]
          simp only [hpD]
          rfl
        simp only [entryCount, List.countP_cons, hite] at hrec ⊢
        omega
      | dupInDb d0 =>
        obtain ⟨_, _, _, _, hd0⟩ := processLine_dupInDb_inv hpl
        have hl : d0.lineNumber = i + 1 := by rw [hd0]
        have hite : (if d0.lineNumber == n then 1 else 0) = 0 := by
          rw [hl]
          simp only [hpD]
          rfl
        simp only [entryCount, List.countP_cons, hite] at hrec ⊢
        omega
      | blank => exact hrec
      | added => exact hrec

/-- Two distinct members both satisfying `p` force a count of at least 2. -/
lemma two_le_countP_of_mem {α : Type} (p : α → Bool) :
    ∀ {l : List α} {a b : α}, a ∈ l → b ∈ l → a ≠ b →
      p a = true → p b = true → 2 ≤ l.countP p := by
  intro l
  induction l with
  | nil => intro a b ha; simp at ha
  | cons x t ih =>
    intro a b ha hb hne hpa hpb
    rcases List.mem_cons.mp ha with rfl | hat
    · rcases List.mem_cons.mp hb with rfl | hbt
      · exact absurd rfl hne
      · have h1 : 0 < t.countP p := List.countP_pos_iff.mpr ⟨b, hbt, hpb⟩
        have hite : (if p a then 1 else 0) = 1 := by simp [hpa]
        rw [List.countP_cons, hite]
        omega
    · rcases List.mem_cons.mp hb with rfl | hbt
      · have h1 : 0 < t.countP p := List.countP_pos_iff.mpr ⟨a, hat, hpa⟩
        have hite : (if p b then 1 else 0) = 1 := by simp [hpb]
        rw [List.countP_cons, hite]
        omega
      · have := ih hat hbt hne hpa hpb
        have hite : (if p x then 1 else 0) ≤ 1 := by split_ifs <;> omega
        rw [List.countP_cons]
        omega

/-- Every non-blank line failing the format check produces an error entry
at its absolute line number. -/
lemma batchGo_error_exists (store : List Str) :
    ∀ (rest : List Str) (i : Nat) (seen : List Str) (j : Nat)
      (h : j < rest.length),
      trim (rest.get ⟨j, h⟩) ≠ [] →
      vccFormatError (trim (rest.get ⟨j, h⟩)) ≠ none →
      ∃ e ∈ (batchGo store rest i seen).1, e.lineNumber = some (i + j + 1) := by
  intro rest
  induction rest with
  | nil => intro i seen j h; exact absurd h (by simp)
  | cons raw rest ih =>
    intro i seen j h hb hv
    cases j with
    | zero =>
      have hb' : trim raw ≠ [] := by simpa using hb
      have hv' : vccFormatError (trim raw) ≠ none := by simpa using hv
      obtain ⟨msg, hmsg⟩ := Option.ne_none_iff_exists'.mp hv'
      rw [batchGo_cons, processLine_of_invalid hb' hmsg]
      exact ⟨_, List.mem_cons_self _ _, rfl⟩
    | succ k =>
      have h' : k < rest.length := by
        simp only [List.length_cons] at h
        omega
      obtain ⟨e, he, hn⟩ :=
        ih (i + 1) (nextSeen seen raw) k h' (by simpa using hb)
          (by simpa using hv)
      refine ⟨e, (batchGo_cons_subset store raw rest i seen).1 he, ?_⟩
      have harith : i + 1 + k + 1 = i + (k + 1) + 1 := by omega
      rw [hn, harith]

/-- Every non-blank, format-valid line whose card number is already in the
evolved seen set produces an in-file duplicate entry at its absolute line
number. -/
lemma batchGo_dupInFile_exists (store : List Str) :
    ∀ (rest : List Str) (i : Nat) (seen : List Str) (j : Nat)
      (h : j < rest.length),
      trim (rest.get ⟨j, h⟩) ≠ [] →
      vccFormatError (trim (rest.get ⟨j, h⟩)) = none →
      cardNumberOf (trim (rest.get ⟨j, h⟩)) ∈ seenAt seen rest j →
      ∃ d ∈ (batchGo store rest i seen).2,
        d.lineNumber = i + j + 1 ∧ d.error = dupInFileMsg := by
  intro rest
  induction rest with
  | nil => intro i seen j h; exact absurd h (by simp)
  | cons raw rest ih =>
    intro i seen j h hb hv hmem
    cases j with
    | zero =>
      have hb' : trim raw ≠ [] := by simpa using hb
      have hv' : vccFormatError (trim raw) = none := by simpa using hv
      have hc : seen.contains (cardNumberOf (trim raw)) = true := by
        have : cardNumberOf (trim raw) ∈ seen := by simpa [seenAt] using hmem
        simpa using this
      rw [batchGo_cons, processLine_of_seen hb' hv' hc]
      exact ⟨_, List.mem_cons_self _ _, rfl, rfl⟩
    | succ k =>
      have h' : k < rest.length := by
        simp only [List.length_cons] at h
        omega
      have hmem' : cardNumberOf (trim (rest.get ⟨k, h'⟩)) ∈
          seenAt (nextSeen seen raw) rest k := by
        simpa [seenAt] using hmem
      obtain ⟨d, hd, hn, herr⟩ :=
        ih (i + 1) (nextSeen seen raw) k h' (by simpa using hb)
          (by simpa using hv) hmem'
      refine ⟨d, (batchGo_cons_subset store raw rest i seen).2 hd, ?_, herr⟩
      have harith : i + 1 + k + 1 = i + (k + 1) + 1 := by omega
      rw [hn, harith]

/-- C8 (amended): batch validation skips blank lines — they produce no
report entry — but blank lines DO count toward the 1-based line numbers:
the number attached to every reported entry is the line's 1-based
position in the full input list (`i + 1` for index `i`, blanks included),
not its position among the non-blank lines.  (Callers that pre-filter
blank lines, like the `/vcc-upload` handler, therefore see numbering
among the file's non-blank lines.) -/
theorem batch_lineNumbers_are_raw_positions (store lines : List Str) :
    (∀ e ∈ (validateVccBatch store lines).errors,
      ∃ j, ∃ h : j < lines.length,
        e.lineNumber = some (j + 1) ∧
        e.card = some (trim (lines.get ⟨j, h⟩)) ∧
        trim (lines.get ⟨j, h⟩) ≠ []) ∧
    (∀ d ∈ (validateVccBatch store lines).duplicates,
      ∃ j, ∃ h : j < lines.length,
        d.lineNumber = j + 1 ∧
        d.card = trim (lines.get ⟨j, h⟩) ∧
        trim (lines.get ⟨j, h⟩) ≠ []) := by
  constructor
  · intro e he
    have he' : e ∈ (batchGo store lines 0 []).1 := by
      simpa [validateVccBatch] using he
    obtain ⟨j, h, h1, h2, h3, _⟩ := batchGo_errors_source store lines 0 [] e he'
    exact ⟨j, h, by simpa using h1, h2, h3⟩
  · intro d hd
    have hd' : d ∈ (batchGo store lines 0 []).2 := by
      simpa [validateVccBatch] using hd
    obtain ⟨j, h, h1, h2, h3, _, _⟩ := batchGo_dups_source store lines 0 [] d hd'
    exact ⟨j, h, by simpa using h1, h2, h3⟩

/-- C8 counterexample: on the input `["", "x"]` the malformed line `"x"`
is the first (and only) non-blank line, so the claim requires it to be
reported as line 1 — but `validateVccBatch` numbers lines by their raw
index including blanks and reports it as line 2. -/
theorem batch_blank_lines_consume_numbers :
    (validateVccBatch [] [[], ['x']]).errors.map (fun e => e.lineNumber) =
      [some 2] ∧
    List.filter (fun l => !(trim l).isEmpty) [([] : Str), ['x']] = [['x']] := by
  decide

/-- C8 witness: the amended numbering applied to the concrete input
`["", "x"]` — the reported entry is at raw position 2 (a non-blank
line). -/
theorem batch_lineNumbers_are_raw_positions_witness :
    ∃ j, ∃ h : j < ([[], ['x']] : List Str).length,
      (⟨false, some 2, some "Expected 5 fields, got 1", some ['x']⟩ :
          ValidationResult).lineNumber = some (j + 1) ∧
      (⟨false, some 2, some "Expected 5 fields, got 1", some ['x']⟩ :
          ValidationResult).card =
        some (trim (([[], ['x']] : List Str).get ⟨j, h⟩)) ∧
      trim (([[], ['x']] : List Str).get ⟨j, h⟩) ≠ [] :=
  (batch_lineNumbers_are_raw_positions [] [[], ['x']]).1
    ⟨false, some 2, some "Expected 5 fields, got 1", some ['x']⟩ (by decide)

/-- C10 (amended): batch validation classifies each line into at most one
report entry: (a) a blank line yields no entry at all; (b) a non-blank
line failing the format check yields an error entry and never a duplicate
entry; (c) a non-blank format-valid line whose card number repeats that
of an earlier non-blank FORMAT-VALID line is reported exactly once, as an
in-file duplicate (never as an already-in-database duplicate, and not in
the errors list).  The format-validity qualifier on the earlier line is
necessary: `seenCardNumbers` only collects numbers of lines that passed
format validation, so repeating a malformed earlier line's number does
not trigger the in-file check — see the counterexample above part (c)'s
original reading (`batch_interDup_after_malformed_first`). -/
theorem batch_classification (store lines : List Str) :
    (∀ j, ∀ h : j < lines.length, trim (lines.get ⟨j, h⟩) = [] →
      (∀ e ∈ (validateVccBatch store lines).errors,
        e.lineNumber ≠ some (j + 1)) ∧
      (∀ d ∈ (validateVccBatch store lines).duplicates,
        d.lineNumber ≠ j + 1)) ∧
    (∀ j, ∀ h : j < lines.length, trim (lines.get ⟨j, h⟩) ≠ [] →
      vccFormatError (trim (lines.get ⟨j, h⟩)) ≠ none →
      (∃ e ∈ (validateVccBatch store lines).errors,
        e.lineNumber = some (j + 1)) ∧
      (∀ d ∈ (validateVccBatch store lines).duplicates,
        d.lineNumber ≠ j + 1)) ∧
    (∀ j, ∀ h : j < lines.length, trim (lines.get ⟨j, h⟩) ≠ [] →
      vccFormatError (trim (lines.get ⟨j, h⟩)) = none →
      (∃ j', ∃ h' : j' < lines.length, j' < j ∧
        trim (lines.get ⟨j', h'⟩) ≠ [] ∧
        vccFormatError (trim (lines.get ⟨j', h'⟩)) = none ∧
        cardNumberOf (trim (lines.get ⟨j', h'⟩)) =
          cardNumberOf (trim (lines.get ⟨j, h⟩))) →
      (∃ d ∈ (validateVccBatch store lines).duplicates,
        d.lineNumber = j + 1 ∧ d.error = dupInFileMsg ∧
        ∀ d' ∈ (validateVccBatch store lines).duplicates,
          d'.lineNumber = j + 1 → d' = d) ∧
      (∀ e ∈ (validateVccBatch store lines).errors,
        e.lineNumber ≠ some (j + 1))) := by
  refine ⟨?_, ?_, ?_⟩
  · intro j h hblank
    constructor
    · intro e he hn
      have he' : e ∈ (batchGo store lines 0 []).1 := by
        simpa [validateVccBatch] using he
      obtain ⟨j2, h2, h1, _, h3, _⟩ :=
        batchGo_errors_source store lines 0 [] e he'
      rw [hn] at h1
      have hj : j2 = j := by
        simp at h1
        omega
      subst hj
      exact h3 hblank
    · intro d hd hn
      have hd' : d ∈ (batchGo store lines 0 []).2 := by
        simpa [validateVccBatch] using hd
      obtain ⟨j2, h2, h1, _, h3, _, _⟩ :=
        batchGo_dups_source store lines 0 [] d hd'
      rw [hn] at h1
      have hj : j2 = j := by omega
      subst hj
      exact h3 hblank
  · intro j h hb hv
    constructor
    · obtain ⟨e, he, hn⟩ := batchGo_error_exists store lines 0 [] j h hb hv
      exact ⟨e, by simpa [validateVccBatch] using he, by simpa using hn⟩
    · intro d hd hn
      have hd' : d ∈ (batchGo store lines 0 []).2 := by
        simpa [validateVccBatch] using hd
      obtain ⟨j2, h2, h1, _, _, h4, _⟩ :=
        batchGo_dups_source store lines 0 [] d hd'
      rw [hn] at h1
      have hj : j2 = j := by omega
      subst hj
      exact hv h4
  · rintro j h hb hv ⟨j', h', hlt, hb', hv', hnum⟩
    have hmem : cardNumberOf (trim (lines.get ⟨j, h⟩)) ∈ seenAt [] lines j := by
      have := seenAt_contains_earlier lines [] j' j h' hlt hb' hv'
      rwa [hnum] at this
    obtain ⟨d, hd, hn, herr⟩ :=
      batchGo_dupInFile_exists store lines 0 [] j h hb hv hmem
    have hcount := batchGo_entryCount_le_one store lines 0 [] (j + 1)
    constructor
    · refine ⟨d, by simpa [validateVccBatch] using hd, by simpa using hn,
        herr, ?_⟩
      intro d' hd'mem hd'n
      by_contra hneq
      have hd'mem' : d' ∈ (batchGo store lines 0 []).2 := by
        simpa [validateVccBatch] using hd'mem
      have hpd : (d.lineNumber == j + 1) = true := by simp [hn]
      have hpd' : (d'.lineNumber == j + 1) = true := by simp [hd'n]
      have h2 : 2 ≤ (batchGo store lines 0 []).2.countP
          (fun x => x.lineNumber == j + 1) :=
        two_le_countP_of_mem _ hd'mem' hd (Ne.symm (Ne.symm hneq)) hpd' hpd
      have : entryCount (j + 1) (batchGo store lines 0 []) ≤ 1 := hcount
      simp only [entryCount] at this
      omega
    · intro e he hen
      have he' : e ∈ (batchGo store lines 0 []).1 := by
        simpa [validateVccBatch] using he
      obtain ⟨j2, h2, h1, _, _, h4⟩ :=
        batchGo_errors_source store lines 0 [] e he'
      rw [hen] at h1
      have hj : j2 = j := by
        simp at h1
        omega
      subst hj
      exact h4 hv

/-- C10 counterexample: a format-valid line whose card number repeats that
of an earlier — but malformed — line of the same batch is NOT reported as
an intra-batch duplicate: `seenCardNumbers` only collects numbers of
lines that passed format validation, so the line falls through to the
database check and, with its cleaned text present in the store, is
reported as an inter-batch duplicate ("Card already exists in
database").  This refutes "a line whose card number repeats an earlier
line of the same batch is reported only as an intra-batch duplicate and
is not additionally checked or reported as an inter-batch duplicate":
here line 2 repeats line 1's card number (month 13 makes line 1 a format
error), and its sole report entry carries the inter-batch message. -/
theorem batch_interDup_after_malformed_first :
    (validateVccBatch
        ["1111111111111111,12/25,123,12345,a@b.c".toList]
        ["1111111111111111,13/25,123,12345,a@b.c".toList,
         "1111111111111111,12/25,123,12345,a@b.c".toList]).duplicates =
      [⟨2, dupInDbMsg, "1111111111111111,12/25,123,12345,a@b.c".toList⟩] ∧
    cardNumberOf ("1111111111111111,12/25,123,12345,a@b.c".toList) =
      cardNumberOf ("1111111111111111,13/25,123,12345,a@b.c".toList) ∧
    dupInDbMsg ≠ dupInFileMsg := by
  decide

/-- Two format-valid lines sharing a card number, for the C10 witness. -/
def c10Lines : List Str :=
  ["1234567890123456,12/25,123,12345,a@b.c".toList,
   "1234567890123456,01/27,999,54321,q@w.ee".toList]

/-- C10 witness: on a batch whose second line repeats the first line's
card number, the classification theorem yields exactly one entry for
line 2 — an in-file duplicate — and nothing in the errors list. -/
theorem batch_classification_witness :
    (∃ d ∈ (validateVccBatch [] c10Lines).duplicates,
      d.lineNumber = 1 + 1 ∧ d.error = dupInFileMsg ∧
      ∀ d' ∈ (validateVccBatch [] c10Lines).duplicates,
        d'.lineNumber = 1 + 1 → d' = d) ∧
    (∀ e ∈ (validateVccBatch [] c10Lines).errors,
      e.lineNumber ≠ some (1 + 1)) :=
  (batch_classification [] c10Lines).2.2 1 (by decide) (by decide) (by decide)
    ⟨0, by decide, by decide, by decide, by decide, by decide⟩

end BitePlug
